import Mathlib

/-!
Verification of the cdl2025 clinical knowledge-graph system.

This file gives a shallow embedding, in Lean, of the parts of the code that
the verified claims are about:

* `src/util/config_loader.py` — `load_config`, `load_config_api`;
* `src/factory/icd10_group.py` — `alphanum_range`;
* `src/factory/hpo_embedding.py` — `set_index` and the missing-embedding
  count/write queries (modelled by the structured content of their Cypher);
* `src/factory/ontology_map.py` — the confidence-threshold filter of
  `get_source_nodes_in_batch` and the effects of the
  `merge_mapping_relationship` write query, plus the constructor's
  configuration-loading sequence;
* `src/llm/query_factory.py` — `get_patient_icd_codes`, `map_icd_to_hpo`,
  `rollup_hpo_to_ancestors`, `compute_coverage`, each modelled as a pure
  function over an explicit graph / patient-virtualization value whose
  semantics follow the Cypher text of the source;
* `src/llm/agent.py` — `route_after_extract` and `have_icd`.

Machine floats appear only in `round(100.0 * covered / total, 1)`; that
rounding is modelled exactly over `Nat` as a number of tenths
(`coveragePctTenths`), i.e. as the mathematical half-up rounding the
expression denotes.
-/

namespace Cdl2025

/-! ## Generic helpers -/

/-- Deduplicate a list keeping the first occurrence of each element, as
Cypher `DISTINCT` / `apoc.coll.toSet` do. -/
def dedupKeepFirst : List String → List String
  | [] => []
  | a :: l => a :: (dedupKeepFirst l).filter (· ≠ a)

/-- Python `str.strip()` (whitespace at both ends; the data is ASCII). -/
def pyStrip (s : String) : String :=
  ⟨((s.toList.dropWhile Char.isWhitespace).reverse.dropWhile Char.isWhitespace).reverse⟩

/-- Python `str.upper()` (the data is ASCII). -/
def pyUpper (s : String) : String := ⟨s.toList.map Char.toUpper⟩

/-- Python `str.lower()` (the data is ASCII). -/
def pyLower (s : String) : String := ⟨s.toList.map Char.toLower⟩

/-- Python `str.rstrip("/")`. -/
def rstripSlash (s : String) : String :=
  ⟨((s.toList.reverse.dropWhile (· = '/'))).reverse⟩

/-- Python `<=` on strings (code-point lexicographic). -/
def lexLeB : List Char → List Char → Bool
  | [], _ => true
  | _ :: _, [] => false
  | a :: as, b :: bs => if a = b then lexLeB as bs else decide (a < b)

/-- `l₁.isPrefixOf l₂` as a structurally recursive boolean. -/
def listIsPrefixB : List Char → List Char → Bool
  | [], _ => true
  | _ :: _, [] => false
  | a :: as, b :: bs => decide (a = b) && listIsPrefixB as bs

/-- Substring containment (Python `needle in hay`), boolean. -/
def listIsInfixB (n : List Char) : List Char → Bool
  | [] => n.isEmpty
  | h :: hs => listIsPrefixB n (h :: hs) || listIsInfixB n hs

/-! ## `src/util/config_loader.py` -/

/-- The error taxonomy of the configuration loader:
`FileNotFoundError` / `KeyError` / `ValueError` (empty uri) raised by
`load_config`, and the `ValueError` for an unknown service name raised by
`load_config_api`. -/
inductive ConfigError where
  | notFound
  | missingSection
  | invalidConfig
  | invalidInput
  deriving DecidableEq, Repr

/-- A configuration file: `none` when the file cannot be read, otherwise
the list of sections, each carrying the raw string of its `uri` key
(`""` when the key is missing, matching `cfg.get(section, "uri",
fallback="")`). -/
def Config : Type := Option (List (String × String))

/-- Look a section up by name (first match, like `configparser`). -/
def lookupSection (secs : List (String × String)) (name : String) : Option String :=
  (secs.find? (fun p => p.1 = name)).map (·.2)

/-- `load_config(env_section, path)`: returns the section's `uri`, stripped
and with trailing slashes removed.  `apiEnv` models the value of the
`API_ENV` environment variable (default `"api"`), used only when no
section is given. -/
def load_config (env_section : Option String) (apiEnv : String) (cfg : Config) :
    Except ConfigError String :=
  match cfg with
  | none => .error .notFound
  | some secs =>
    match lookupSection secs (env_section.getD apiEnv) with
    | none => .error .missingSection
    | some raw =>
      if rstripSlash (pyStrip raw) = "" then .error .invalidConfig
      else .ok (rstripSlash (pyStrip raw))

/-- The `section_map` of `load_config_api`. -/
def section_map : List (String × String) :=
  [("chat", "chat-api"), ("embedding", "embedding-api"), ("neo4j", "neo4j")]

/-- `load_config_api(service, path)`: lowercases the service name
(defaulting to the `API_SERVICE` environment value, modelled by
`apiService`), maps it through `section_map` and delegates to
`load_config`; an unknown name is a `ValueError` (`invalidInput`). -/
def load_config_api (service : Option String) (apiService : String) (cfg : Config) :
    Except ConfigError String :=
  match lookupSection section_map (pyLower (service.getD apiService)) with
  | none => .error .invalidInput
  | some section_ => load_config (some section_) "api" cfg

/-! ## `src/factory/icd10_group.py` — `alphanum_range` -/

/-- `[A-Za-z]` (the regex's letter class), by code point:
`'A'`–`'Z'` is 65–90 and `'a'`–`'z'` is 97–122. -/
def isAsciiLetterB (c : Char) : Bool :=
  (65 ≤ c.toNat && c.toNat ≤ 90) || (97 ≤ c.toNat && c.toNat ≤ 122)

/-- `\d` restricted to ASCII (the ICD input data is ASCII), by code point:
`'0'`–`'9'` is 48–57. -/
def isAsciiDigitB (c : Char) : Bool := 48 ≤ c.toNat && c.toNat ≤ 57

/-- `re.fullmatch(r'([A-Za-z]+)(\d+)', s)`: since the two character classes
are disjoint, a full match exists iff the maximal letter prefix is nonempty
and the remainder is a nonempty digit string, and the groups are that split. -/
def parseCode (s : String) : Option (List Char × List Char) :=
  if s.toList.takeWhile isAsciiLetterB ≠ [] ∧ s.toList.dropWhile isAsciiLetterB ≠ [] ∧
      (s.toList.dropWhile isAsciiLetterB).all isAsciiDigitB then
    some (s.toList.takeWhile isAsciiLetterB, s.toList.dropWhile isAsciiLetterB)
  else none

/-- `int` of a decimal digit string. -/
def digitsToNat (d : List Char) : Nat :=
  d.foldl (fun acc c => 10 * acc + (c.toNat - '0'.toNat)) 0

/-- `f"{i:0{width}d}"` for `i : Nat`: the decimal digits of `i`,
left-padded with `'0'` to at least `width` characters. -/
def padZeros (width : Nat) (i : Nat) : List Char :=
  let ds := Nat.toDigits 10 i
  List.replicate (width - ds.length) '0' ++ ds

/-- Python `range(n1, n2 + step, step)` with `step = 1 if n2 >= n1 else -1`:
the inclusive run from `n1` to `n2`, ascending or descending. -/
def pyRangeInclusive (n1 n2 : Nat) : List Nat :=
  if n1 ≤ n2 then (List.range (n2 - n1 + 1)).map (fun k => n1 + k)
  else (List.range (n1 - n2 + 1)).map (fun k => n1 - k)

/-- `alphanum_range(start, end)`: `none` models the `ValueError` raised when
either bound fails the regex; `some []` the logged empty result on a letter
prefix mismatch. -/
def alphanum_range (start end_ : String) : Option (List String) :=
  match parseCode start, parseCode end_ with
  | some (p1, d1), some (p2, d2) =>
    if p1 ≠ p2 then some []
    else
      some ((pyRangeInclusive (digitsToNat d1) (digitsToNat d2)).map
        (fun i => ⟨p1 ++ padZeros (max d1.length d2.length) i⟩))
  | _, _ => none

/-! ## `src/factory/hpo_embedding.py` -/

/-- The structured content of a `CREATE VECTOR INDEX` statement. -/
structure VectorIndexSpec where
  indexName : String
  nodeLabel : String
  property : String
  dimensions : Nat
  similarity : String
  deriving DecidableEq, Repr

/-- The index created by `HPOEmbeddingImporter.set_index()` (read off the
Cypher string at `src/factory/hpo_embedding.py:22-32`). -/
def set_index_spec : VectorIndexSpec :=
  { indexName := "hpo_phenotype_embedding"
    nodeLabel := "HPOPhenotype"
    property := "embedding_label"
    dimensions := 3584
    similarity := "cosine" }

/-- `set_index()` swallows a `Neo4jClientError` exactly when its code is the
equivalent-rule-already-exists one; every other client error is re-raised. -/
def set_index_nonfatal (code : String) : Bool :=
  code = "Neo.ClientError.Schema.EquivalentSchemaRuleAlreadyExists"

/-- The node label matched by `count_hpo_phen_label_missing_embeddings`
(`MATCH (n:HpoPhenotype) WHERE n.embedding_label IS NULL`). -/
def count_missing_label : String := "HpoPhenotype"

/-- The node label matched by the fetch and write queries of
`add_phen_label_embeddings`. -/
def write_embeddings_label : String := "HpoPhenotype"

/-! ## `src/factory/ontology_map.py` -/

/-- The data of one disambiguation result streamed by
`get_source_nodes_in_batch`: the source node id and the `MappingDecision`'s
`best_id` and `confidence` (the LLM's verdict, treated here as input data;
`best_id` is `none` on a parse failure). Confidence is the real number the
float carries, modelled in `ℚ`. -/
structure DecisionItem where
  sourceId : String
  bestId : Option String
  confidence : ℚ
  deriving DecidableEq, Repr

/-- `llm_threshold` (`self.llm_threshold: float = 0.7`). -/
def llm_threshold : ℚ := 7 / 10

/-- The filter applied by `get_source_nodes_in_batch` (and
`get_source_nodes`): only decisions with `confidence >= llm_threshold` are
yielded to the write query. -/
def passing_items (items : List DecisionItem) : List DecisionItem :=
  items.filter (fun it => llm_threshold ≤ it.confidence)

/-- The effect of the `merge_mapping_relationship` write query on one
yielded item, given the set of existing `HpoPhenotype` ids: both `MATCH`es
must succeed for the row to do anything, after which the mapping edge is
merged and the `ProcessedWithOntologyMapper` label is set on the source.
Returns the `(source, target)` pair of the merged edge, or `none`. -/
def mergeRowEffect (targets : List String) (it : DecisionItem) :
    Option (String × String) :=
  it.bestId.bind (fun b => if b ∈ targets then some (it.sourceId, b) else none)

/-- The edges written by `merge_mapping_relationship` over a stream of
decision items: the write query only ever sees the items passing the
confidence filter. -/
def mapping_edges_written (targets : List String) (items : List DecisionItem) :
    List (String × String) :=
  (passing_items items).filterMap (mergeRowEffect targets)

/-- The source nodes that receive the `ProcessedWithOntologyMapper` label:
`SET source:ProcessedWithOntologyMapper` sits in the same Cypher statement
as the edge `MERGE`, so a source is labelled exactly when its row's
`MATCH`es succeeded. -/
def processed_sources (targets : List String) (items : List DecisionItem) :
    List String :=
  (mapping_edges_written targets items).map (·.1)

/-- The configuration-loading sequence of `OntologyMapper.__init__`
(`src/factory/ontology_map.py:65,69`): the embedding-service URI is
resolved first, then the URI for service name `"llm"`. -/
def ontology_mapper_init_config (cfg : Config) : Except ConfigError (String × String) :=
  match load_config_api (some "embedding") "chat" cfg with
  | .error e => .error e
  | .ok emb =>
    match load_config_api (some "llm") "chat" cfg with
    | .error e => .error e
    | .ok llm => .ok (emb, llm)

/-- The configuration-loading sequence of `PatientAnnotator.__init__`
(`src/factory/patient_annotation.py:56,60`): identical shape. -/
def patient_annotator_init_config (cfg : Config) : Except ConfigError (String × String) :=
  match load_config_api (some "embedding") "chat" cfg with
  | .error e => .error e
  | .ok emb =>
    match load_config_api (some "llm") "chat" cfg with
    | .error e => .error e
    | .ok llm => .ok (emb, llm)

/-! ## `src/llm/query_factory.py`

The four pipeline steps are Cypher queries executed against Neo4j; they are
modelled as pure functions over an explicit knowledge-graph value `KGraph`
and an explicit patient-virtualization value `PatientDB`, following the
Cypher text of the source. -/

/-- One `HpoDisease` node together with its outgoing
`HAS_PHENOTYPIC_FEATURE` edges (the ids of the phenotypes it documents). -/
structure HpoDiseaseNode where
  id : String
  label : String
  phenos : List String
  deriving DecidableEq, Repr

/-- The slice of the knowledge graph the query-factory queries touch. -/
structure KGraph where
  /-- Ids of `HpoPhenotype` nodes. -/
  phenotypes : List String
  /-- `SUBCLASSOF` edges (child id, parent id). -/
  subclassof : List (String × String)
  /-- `ICD_MAPS_TO_HPO_PHENOTYPE` edges (`IcdDisease` id, `HpoPhenotype` id). -/
  icdToHpo : List (String × String)
  /-- `UMLS_TO_ICD` edges (`Umls` id, `IcdDisease` id). -/
  umlsToIcd : List (String × String)
  /-- `UMLS_TO_HPO_PHENOTYPE` edges (`Umls` id, `HpoPhenotype` id). -/
  umlsToHpo : List (String × String)
  /-- `HpoDisease` nodes with their phenotype annotations. -/
  diseases : List HpoDiseaseNode
  deriving Repr

/-- One row of the virtualized `patient` source: the parsed
`ICD10_Codes` list property and its BOM-prefixed variant (`none` models a
null / absent property, as seen by `coalesce`). -/
structure PatientRow where
  icd10 : Option (List String)
  icd10bom : Option (List String)
  deriving Repr

/-- The tabular source behind `apoc.dv.query('patient', ...)`, keyed by
patient id. -/
structure PatientDB where
  patients : List (String × List PatientRow)
  deriving Repr

/-- The rows `apoc.dv.query('patient', {patientId: pid})` yields. -/
def dvQuery (db : PatientDB) (pid : String) : List PatientRow :=
  ((db.patients.find? (fun p => p.1 = pid)).map (·.2)).getD []

/-- Python `sorted` on strings (ascending code-point lexicographic). -/
def sortStrings (l : List String) : List String :=
  l.insertionSort (fun a b => lexLeB a.toList b.toList = true)

/-- `get_patient_icd_codes(patient_id)` (`src/llm/query_factory.py:74-93`).
The Cypher hardcodes `{patientId:'P001'}` (the `pid` parameter is bound but
unused), only `rows[0]` is read, `coalesce` prefers the unprefixed
property, and the result is the sorted set of the uppercased stripped
non-empty codes. -/
def get_patient_icd_codes (db : PatientDB) (patient_id : String) : List String :=
  let rows := dvQuery db "P001"
  match rows with
  | [] => []
  | r0 :: _ =>
    let codes := (r0.icd10 <|> r0.icd10bom).getD []
    sortStrings (dedupKeepFirst
      ((codes.filter (fun c => c ≠ "")).map (fun c => pyUpper (pyStrip c))))

/-- `map_icd_to_hpo(icd_codes)` (`src/llm/query_factory.py:96-106`):
`UNWIND $codes AS code MATCH (:IcdDisease {id: code})-
[:ICD_MAPS_TO_HPO_PHENOTYPE]->(h:HpoPhenotype) RETURN collect(DISTINCT
h.id)`. Only the direct edge is followed. -/
def map_icd_to_hpo (g : KGraph) (icd_codes : List String) : List String :=
  if icd_codes = [] then []
  else
    dedupKeepFirst (icd_codes.flatMap (fun c =>
      (g.icdToHpo.filter (fun e => e.1 = c ∧ e.2 ∈ g.phenotypes)).map (·.2)))

/-- Ids one `SUBCLASSOF` step above any element of `s`. -/
def subclassSuccessors (g : KGraph) (s : List String) : List String :=
  s.flatMap (fun x => (g.subclassof.filter (fun e => e.1 = x)).map (·.2))

/-- `n` rounds of closure under `subclassSuccessors`, starting from `s`. -/
def reachIter (g : KGraph) : Nat → List String → List String
  | 0, s => s
  | n + 1, s => reachIter g n (dedupKeepFirst (s ++ subclassSuccessors g s))

/-- The nodes reachable from `hid` over `SUBCLASSOF*0..`: every node lies
at the end of a duplicate-free edge path, so `|subclassof|` rounds reach
the closure. -/
def subclassReachable (g : KGraph) (hid : String) : List String :=
  reachIter g g.subclassof.length [hid]

/-- `rollup_hpo_to_ancestors(hpo_ids)` (`src/llm/query_factory.py:109-120`):
for each id naming an `HpoPhenotype` node, every `anc:HpoPhenotype`
reachable over `SUBCLASSOF*0..` (the node itself included), deduplicated. -/
def rollup_hpo_to_ancestors (g : KGraph) (hpo_ids : List String) : List String :=
  if hpo_ids = [] then []
  else
    dedupKeepFirst ((hpo_ids.filter (· ∈ g.phenotypes)).flatMap (fun hid =>
      (subclassReachable g hid).filter (· ∈ g.phenotypes)))

/-- One result row of `compute_coverage`, with `coveragePct` carried as a
number of tenths of a percent (`coveragePctTenths = 667` means `66.7`),
the exact value of `round(100.0 * covered / total, 1)`. -/
structure CoverageRow where
  diseaseId : String
  diseaseName : String
  covered : Nat
  total : Nat
  coveragePctTenths : Nat
  missingHpoIds : List String
  deriving DecidableEq, Repr

/-- `round(100.0 * covered / total, 1)` in tenths: half-up rounding of
`1000 * covered / total`, computed as `⌊(2000c + t) / 2t⌋`. -/
def pctTenths (covered total : Nat) : Nat :=
  (2000 * covered + total) / (2 * total)

/-- The row `compute_coverage`'s Cypher builds for one disease, `none` when
the disease has no `HAS_PHENOTYPIC_FEATURE` edge into the target set
(`WHERE dh.id IN $target` / `WHERE covered > 0`). `got` is the
deduplicated list of the disease's phenotype ids lying in the target set;
`covered = size(apoc.coll.intersection(target, got)) = |got|`,
`total = size(target)` (the parameter list's length, duplicates included),
`missing = apoc.coll.subtract(target, got)`. -/
def coverageRowFor (target : List String) (d : HpoDiseaseNode) : Option CoverageRow :=
  if dedupKeepFirst (d.phenos.filter (· ∈ target)) = [] then none
  else some
    { diseaseId := d.id
      diseaseName := d.label
      covered := (dedupKeepFirst (d.phenos.filter (· ∈ target))).length
      total := target.length
      coveragePctTenths :=
        pctTenths (dedupKeepFirst (d.phenos.filter (· ∈ target))).length target.length
      missingHpoIds := (dedupKeepFirst target).filter
        (· ∉ dedupKeepFirst (d.phenos.filter (· ∈ target))) }

/-- `ORDER BY coveragePct DESC, covered DESC` as a relation on rows. -/
def rowGE (a b : CoverageRow) : Prop :=
  b.coveragePctTenths < a.coveragePctTenths ∨
    (a.coveragePctTenths = b.coveragePctTenths ∧ b.covered ≤ a.covered)

instance : DecidableRel rowGE := fun a b => by
  unfold rowGE; infer_instance

instance : IsTotal CoverageRow rowGE :=
  ⟨fun a b => by
    unfold rowGE
    rcases Nat.lt_trichotomy a.coveragePctTenths b.coveragePctTenths with h | h | h
    · exact Or.inr (Or.inl h)
    · rcases Nat.le_total b.covered a.covered with hc | hc
      · exact Or.inl (Or.inr ⟨h, hc⟩)
      · exact Or.inr (Or.inr ⟨h.symm, hc⟩)
    · exact Or.inl (Or.inl h)⟩

instance : IsTrans CoverageRow rowGE :=
  ⟨fun a b c hab hbc => by
    unfold rowGE at *
    rcases hab with h1 | ⟨h1, h1'⟩ <;> rcases hbc with h2 | ⟨h2, h2'⟩
    · exact Or.inl (h2.trans h1)
    · exact Or.inl (h2 ▸ h1)
    · exact Or.inl (h1 ▸ h2)
    · exact Or.inr ⟨h1.trans h2, h2'.trans h1'⟩⟩

/-- The rows the coverage Cypher produces before the `LIMIT`: one per
disease with a phenotype edge into the target set, ordered by
`coveragePct DESC, covered DESC`. -/
def coverage_rows_ordered (g : KGraph) (target_ids : List String) : List CoverageRow :=
  (g.diseases.filterMap (coverageRowFor target_ids)).insertionSort rowGE

/-- `compute_coverage(target_ids, limit)` (`src/llm/query_factory.py:123-140`):
empty short-circuit, one row per disease with a phenotype edge into the
target set, ordered by `coveragePct DESC, covered DESC`, truncated to
`limit`. -/
def compute_coverage (g : KGraph) (target_ids : List String) (limit : Nat) :
    List CoverageRow :=
  if target_ids = [] then []
  else (coverage_rows_ordered g target_ids).take limit

/-- Modelled from the spec: `rank_diseases_for_patient(patient_id, limit=20)`
is imported from `llm.query_factory` by `src/llm/tool.py:31` but its
definition is absent from the sources; per §4.18 of the spec it "composes
all four steps end-to-end, short-circuiting to an empty result at the
first step that yields nothing". -/
def rank_diseases_for_patient (db : PatientDB) (g : KGraph)
    (patient_id : String) (limit : Nat := 20) : List CoverageRow :=
  if get_patient_icd_codes db patient_id = [] then []
  else if map_icd_to_hpo g (get_patient_icd_codes db patient_id) = [] then []
  else if rollup_hpo_to_ancestors g
      (map_icd_to_hpo g (get_patient_icd_codes db patient_id)) = [] then []
  else
    compute_coverage g
      (rollup_hpo_to_ancestors g (map_icd_to_hpo g (get_patient_icd_codes db patient_id)))
      limit

/-- Written from the spec's words for claim C4, to be compared with
`map_icd_to_hpo`: the deduplicated union of (a) the phenotypes reached
directly over `ICD_MAPS_TO_HPO_PHENOTYPE` and (b) those reached via
`IcdDisease ← UMLS_TO_ICD ← Umls → UMLS_TO_HPO_PHENOTYPE → HpoPhenotype`. -/
def map_icd_to_hpo_claimed (g : KGraph) (icd_codes : List String) : List String :=
  if icd_codes = [] then []
  else
    dedupKeepFirst (icd_codes.flatMap (fun c =>
      (g.icdToHpo.filter (fun e => e.1 = c ∧ e.2 ∈ g.phenotypes)).map (·.2) ++
      (g.umlsToIcd.filter (fun e => e.2 = c)).flatMap (fun e =>
        (g.umlsToHpo.filter (fun e2 => e2.1 = e.1 ∧ e2.2 ∈ g.phenotypes)).map (·.2))))

/-! ### Fixture values used by concrete-input theorems -/

/-- A graph with one disease documenting `{H1, H2, H3}`. -/
def gC1 : KGraph :=
  { phenotypes := ["H1", "H2", "H3"]
    subclassof := []
    icdToHpo := []
    umlsToIcd := []
    umlsToHpo := []
    diseases := [⟨"D1", "d1", ["H1", "H2", "H3"]⟩] }

/-- A graph in which `H9` is reachable from ICD code `A00` only through
the indirect UMLS path. -/
def gC4 : KGraph :=
  { phenotypes := ["H9"]
    subclassof := []
    icdToHpo := []
    umlsToIcd := [("U1", "A00")]
    umlsToHpo := [("U1", "H9")]
    diseases := [] }

/-- A graph on which the whole four-step pipeline is non-empty. -/
def gW : KGraph :=
  { phenotypes := ["H1", "H2"]
    subclassof := [("H1", "H2")]
    icdToHpo := [("A00", "H1")]
    umlsToIcd := []
    umlsToHpo := []
    diseases := [⟨"D1", "d1", ["H2"]⟩] }

/-- A patient virtualization in which `P001` carries ICD code `a00`. -/
def dbW : PatientDB :=
  ⟨[("P001", [⟨some ["a00"], none⟩])]⟩

/-! ## `src/llm/agent.py` — routing -/

/-- The slice of `AgentState` the routing predicates read.  `patient_id`
and `icd_codes` are optional fields of a `TypedDict`; Python truthiness of
`state.get(...)` is what the routers test. -/
structure AgentStateSlice where
  question : String
  patient_id : Option String
  icd_codes : Option (List String)

/-- Python truthiness of an optional string. -/
def truthyStr : Option String → Bool
  | none => false
  | some s => s ≠ ""

/-- Python truthiness of an optional list. -/
def truthyList : Option (List String) → Bool
  | none => false
  | some l => l ≠ []

/-- The fixed keyword set of `route_after_extract`
(`src/llm/agent.py:251-274`), verbatim. -/
def patient_info_keywords : List String :=
  ["summarize", "summary", "presentation", "findings", "what is documented",
   "documented", "treatment", "therapy", "follow-up", "follow up", "vitals",
   "narrative", "exam", "examination", "diagnosis", "icd", "clinical picture",
   "course", "evolution", "nlp", "ner entities", "ned entities"]

/-- Python `kw in q` (substring containment), boolean. -/
def strContainsB (hay needle : String) : Bool :=
  listIsInfixB needle.toList hay.toList

/-- `route_after_extract` (`src/llm/agent.py:242-280`). -/
def route_after_extract (st : AgentStateSlice) : String :=
  let q := pyLower st.question
  if ¬ truthyStr st.patient_id then "fallback"
  else if patient_info_keywords.any (fun kw => strContainsB q kw) then
    "patient_info"
  else "get_icd"

/-- `have_icd` (`src/llm/agent.py:293-294`). -/
def have_icd (st : AgentStateSlice) : String :=
  if truthyList st.icd_codes then "icd_to_hpo" else "fallback"

deriving instance DecidableEq for Except

/-! ## Helper lemmas -/

theorem dedupKeepFirst_cons (b : String) (l : List String) :
    dedupKeepFirst (b :: l) = b :: (dedupKeepFirst l).filter (· ≠ b) := rfl

theorem mem_dedupKeepFirst {a : String} {l : List String} :
    a ∈ dedupKeepFirst l ↔ a ∈ l := by
  induction l with
  | nil => exact Iff.rfl
  | cons b l ih =>
    rw [dedupKeepFirst_cons]
    by_cases hab : a = b
    · subst hab; simp
    · simp only [List.mem_cons, List.mem_filter, ih, decide_eq_true_eq]
      constructor
      · rintro (h | ⟨h, -⟩)
        · exact Or.inl h
        · exact Or.inr h
      · rintro (h | h)
        · exact Or.inl h
        · exact Or.inr ⟨h, hab⟩

theorem nodup_dedupKeepFirst : ∀ (l : List String), (dedupKeepFirst l).Nodup
  | [] => List.nodup_nil
  | b :: l => by
    rw [dedupKeepFirst_cons]
    refine List.Nodup.cons ?_ ((nodup_dedupKeepFirst l).filter _)
    intro hmem
    exact (of_decide_eq_true ((List.mem_filter.mp hmem).2)) rfl

theorem dedupKeepFirst_eq_nil_iff {l : List String} : dedupKeepFirst l = [] ↔ l = [] := by
  cases l with
  | nil => exact Iff.rfl
  | cons b l => rw [dedupKeepFirst_cons]; simp

theorem listIsPrefixB_iff : ∀ (n h : List Char), listIsPrefixB n h = true ↔ n <+: h
  | [], h => by
    rw [show listIsPrefixB [] h = true from rfl]
    simp
  | a :: as, [] => by
    rw [show listIsPrefixB (a :: as) [] = false from rfl]
    simp
  | a :: as, b :: bs => by
    rw [show listIsPrefixB (a :: as) (b :: bs) = (decide (a = b) && listIsPrefixB as bs)
        from rfl,
      Bool.and_eq_true, decide_eq_true_eq, List.cons_prefix_cons, listIsPrefixB_iff as bs]

theorem listIsInfixB_iff (n : List Char) : ∀ (h : List Char), listIsInfixB n h = true ↔ n <:+: h
  | [] => by
    rw [show listIsInfixB n [] = n.isEmpty from rfl]
    simp [List.isEmpty_iff]
  | b :: bs => by
    rw [show listIsInfixB n (b :: bs) = (listIsPrefixB n (b :: bs) || listIsInfixB n bs)
        from rfl,
      List.infix_cons_iff, Bool.or_eq_true, listIsPrefixB_iff, listIsInfixB_iff n bs]

theorem head?_dropWhile {p : Char → Bool} :
    ∀ (l : List Char) {c : Char}, (l.dropWhile p).head? = some c → p c = false := by
  intro l
  induction l with
  | nil => intro c h; simp at h
  | cons a l ih =>
    intro c h
    rw [List.dropWhile_cons] at h
    by_cases hpa : p a = true
    · rw [if_pos hpa] at h; exact ih h
    · rw [if_neg hpa] at h
      simp only [List.head?_cons, Option.some.injEq] at h
      subst h
      simpa using hpa

/-! ## C6 — HPO embedding importer index creation -/

/-- **C6** (code bug): `set_index()` does create the vector index named
`hpo_phenotype_embedding` over `embedding_label` with 3584 dimensions and
cosine similarity, tolerating exactly the equivalent-rule-already-exists
error code — but it creates it `FOR (n:HPOPhenotype)`, a different node
label than the `HpoPhenotype` under which missing embeddings are counted
and written, so the index covers none of the embedded nodes. -/
theorem c6_set_index_label_mismatch :
    set_index_spec.indexName = "hpo_phenotype_embedding" ∧
    set_index_spec.property = "embedding_label" ∧
    set_index_spec.dimensions = 3584 ∧
    set_index_spec.similarity = "cosine" ∧
    set_index_nonfatal "Neo.ClientError.Schema.EquivalentSchemaRuleAlreadyExists" = true ∧
    set_index_nonfatal "Neo.ClientError.Schema.ConstraintAlreadyExists" = false ∧
    count_missing_label = "HpoPhenotype" ∧
    write_embeddings_label = "HpoPhenotype" ∧
    set_index_spec.nodeLabel = "HPOPhenotype" ∧
    set_index_spec.nodeLabel ≠ count_missing_label ∧
    set_index_spec.nodeLabel ≠ write_embeddings_label := by
  decide

/-! ## C8 — configuration loader contract -/

theorem load_config_some (sec : Option String) (env : String)
    (secs : List (String × String)) :
    load_config sec env (some secs) =
      match lookupSection secs (sec.getD env) with
      | none => .error .missingSection
      | some raw =>
        if rstripSlash (pyStrip raw) = "" then .error .invalidConfig
        else .ok (rstripSlash (pyStrip raw)) := rfl

theorem load_config_api_eq (service : Option String) (apiService : String) (cfg : Config) :
    load_config_api service apiService cfg =
      match lookupSection section_map (pyLower (service.getD apiService)) with
      | none => .error .invalidInput
      | some section_ => load_config (some section_) "api" cfg := rfl

/-- **C8** (confirmed): `load_config_api` maps `"chat"`/`"embedding"`/
`"neo4j"` to the sections `[chat-api]`/`[embedding-api]`/`[neo4j]`; any
service name not lowercasing to one of the three yields `invalidInput`; a
missing section yields `missingSection`; an empty `uri` yields
`invalidConfig`; and a successful lookup returns the section's `uri`
stripped, with no trailing slash. -/
theorem c8_load_config_api_contract :
    (∀ (cfg : Config) (env : String),
      load_config_api (some "chat") env cfg = load_config (some "chat-api") "api" cfg) ∧
    (∀ (cfg : Config) (env : String),
      load_config_api (some "embedding") env cfg =
        load_config (some "embedding-api") "api" cfg) ∧
    (∀ (cfg : Config) (env : String),
      load_config_api (some "neo4j") env cfg = load_config (some "neo4j") "api" cfg) ∧
    (∀ (svc env : String) (cfg : Config),
      pyLower svc ∉ ["chat", "embedding", "neo4j"] →
      load_config_api (some svc) env cfg = .error .invalidInput) ∧
    (∀ (s : String) (secs : List (String × String)),
      lookupSection secs s = none →
      load_config (some s) "api" (some secs) = .error .missingSection) ∧
    (∀ (s : String) (secs : List (String × String)),
      lookupSection secs s = some "" →
      load_config (some s) "api" (some secs) = .error .invalidConfig) ∧
    (∀ (s : String) (secs : List (String × String)) (raw : String),
      lookupSection secs s = some raw → rstripSlash (pyStrip raw) ≠ "" →
      load_config (some s) "api" (some secs) = .ok (rstripSlash (pyStrip raw))) ∧
    (∀ (svc : Option String) (env : String) (cfg : Config) (u : String),
      load_config_api svc env cfg = .ok u →
      u ≠ "" ∧ u.toList.getLast? ≠ some '/') := by
  refine ⟨fun _ _ => rfl, fun _ _ => rfl, fun _ _ => rfl, ?_, ?_, ?_, ?_, ?_⟩
  · intro svc env cfg h
    simp only [List.mem_cons, List.not_mem_nil, or_false, not_or] at h
    obtain ⟨h1, h2, h3⟩ := h
    have hnone : lookupSection section_map (pyLower svc) = none := by
      unfold lookupSection section_map
      rw [List.find?_cons_of_neg _ (by simp; exact fun hh => h1 hh.symm),
        List.find?_cons_of_neg _ (by simp; exact fun hh => h2 hh.symm),
        List.find?_cons_of_neg _ (by simp; exact fun hh => h3 hh.symm)]
      rfl
    rw [load_config_api_eq, show pyLower ((some svc).getD env) = pyLower svc from rfl,
      hnone]
  · intro s secs h
    rw [load_config_some, Option.getD_some, h]
  · intro s secs h
    rw [load_config_some, Option.getD_some, h]
    rfl
  · intro s secs raw h hne
    rw [load_config_some, Option.getD_some, h]
    exact if_neg hne
  · intro svc env cfg u h
    rw [load_config_api_eq] at h
    rcases hfind : lookupSection section_map (pyLower (svc.getD env)) with _ | sec
    · simp only [hfind] at h
      exact absurd h (by simp)
    · simp only [hfind] at h
      rcases cfg with _ | secs
      · rw [show load_config (some sec) "api" none = .error .notFound from rfl] at h
        exact absurd h (by simp)
      rw [load_config_some, Option.getD_some] at h
      rcases hsec : lookupSection secs sec with _ | raw
      · simp only [hsec] at h
        exact absurd h (by simp)
      simp only [hsec] at h
      by_cases hempty : rstripSlash (pyStrip raw) = ""
      · rw [if_pos hempty] at h
        exact absurd h (by simp)
      · rw [if_neg hempty] at h
        obtain rfl : rstripSlash (pyStrip raw) = u := by
          simpa using h
        refine ⟨hempty, ?_⟩
        intro hlast
        rw [show (rstripSlash (pyStrip raw)).toList =
              ((pyStrip raw).toList.reverse.dropWhile (· = '/')).reverse from rfl,
          List.getLast?_reverse] at hlast
        have := head?_dropWhile _ hlast
        simp at this

/-- Witness for C8 at concrete configurations. -/
theorem c8_load_config_api_contract_witness :
    load_config_api (some "embedding") "chat"
        (some [("embedding-api", " http://emb// ")]) = .ok "http://emb" ∧
    load_config_api (some "llm") "chat" none = .error .invalidInput ∧
    load_config (some "chat-api") "api" (some [("neo4j", "x")]) = .error .missingSection ∧
    load_config (some "neo4j") "api" (some [("neo4j", "")]) = .error .invalidConfig := by
  refine ⟨?_, ?_, ?_, ?_⟩
  · exact (c8_load_config_api_contract.2.1
      (some [("embedding-api", " http://emb// ")]) "chat").trans (by decide)
  · exact c8_load_config_api_contract.2.2.2.1 "llm" "chat" none (by decide)
  · exact c8_load_config_api_contract.2.2.2.2.1 "chat-api" [("neo4j", "x")] (by decide)
  · exact c8_load_config_api_contract.2.2.2.2.2.1 "neo4j" [("neo4j", "")] (by decide)

/-! ## C10 — constructors of the ontology mapper / patient annotator -/

/-- **C10** (corrected): `load_config_api("llm")` fails with the
unrecognized-service error for every configuration, so both constructors
always raise before reaching `apply_updates` / `import_data`; the raised
error is `invalidInput` whenever the preceding embedding-service lookup
succeeds, and is that lookup's own configuration error otherwise. -/
theorem c10_constructors_always_fail (cfg : Config) :
    load_config_api (some "llm") "chat" cfg = .error .invalidInput ∧
    (∃ e, ontology_mapper_init_config cfg = .error e) ∧
    (∃ e, patient_annotator_init_config cfg = .error e) ∧
    (∀ u, load_config_api (some "embedding") "chat" cfg = .ok u →
      ontology_mapper_init_config cfg = .error .invalidInput ∧
      patient_annotator_init_config cfg = .error .invalidInput) := by
  have hllm : load_config_api (some "llm") "chat" cfg = .error .invalidInput := rfl
  refine ⟨hllm, ?_, ?_, ?_⟩
  · rcases h : load_config_api (some "embedding") "chat" cfg with e | u
    · exact ⟨e, by unfold ontology_mapper_init_config; rw [h]⟩
    · exact ⟨.invalidInput, by unfold ontology_mapper_init_config; rw [h, hllm]⟩
  · rcases h : load_config_api (some "embedding") "chat" cfg with e | u
    · exact ⟨e, by unfold patient_annotator_init_config; rw [h]⟩
    · exact ⟨.invalidInput, by unfold patient_annotator_init_config; rw [h, hllm]⟩
  · intro u h
    constructor
    · unfold ontology_mapper_init_config; rw [h, hllm]
    · unfold patient_annotator_init_config; rw [h, hllm]

/-- Witness for C10 at a configuration whose embedding lookup succeeds. -/
theorem c10_constructors_always_fail_witness :
    ontology_mapper_init_config (some [("embedding-api", "http://emb")]) =
      .error .invalidInput ∧
    patient_annotator_init_config (some [("embedding-api", "http://emb")]) =
      .error .invalidInput :=
  (c10_constructors_always_fail (some [("embedding-api", "http://emb")])).2.2.2
    "http://emb" (by decide)

/-- Counterexample to C10 as stated: with an unreadable configuration file
the constructors raise the file-not-found configuration error, not the
unrecognized-service (`invalidInput`) one. -/
theorem c10_counterexample :
    ontology_mapper_init_config none = .error .notFound ∧
    patient_annotator_init_config none = .error .notFound ∧
    (Except.error ConfigError.notFound : Except ConfigError (String × String)) ≠
      .error .invalidInput := by
  decide

/-! ## C9 — agent routing after `extract` and after `get_icd` -/

/-- **C9** (confirmed): with no (truthy) patient id the route after
`extract` is `fallback`; with a patient id it is `patient_info` exactly
when some keyword of the fixed set occurs in the lowercased question, and
`get_icd` otherwise; and from `get_icd` the next node is `icd_to_hpo`
exactly when the retrieved ICD-code list is non-empty, else `fallback`. -/
theorem c9_agent_routing (st : AgentStateSlice) :
    (truthyStr st.patient_id = false → route_after_extract st = "fallback") ∧
    (truthyStr st.patient_id = true →
      (∃ kw ∈ patient_info_keywords, kw.toList <:+: (pyLower st.question).toList) →
      route_after_extract st = "patient_info") ∧
    (truthyStr st.patient_id = true →
      (∀ kw ∈ patient_info_keywords, ¬ kw.toList <:+: (pyLower st.question).toList) →
      route_after_extract st = "get_icd") ∧
    (have_icd st = "icd_to_hpo" ↔ truthyList st.icd_codes = true) ∧
    (truthyList st.icd_codes = false → have_icd st = "fallback") := by
  refine ⟨?_, ?_, ?_, ?_, ?_⟩
  · intro h
    simp [route_after_extract, h]
  · intro h hex
    have hany : patient_info_keywords.any
        (fun kw => strContainsB (pyLower st.question) kw) = true := by
      rw [List.any_eq_true]
      obtain ⟨kw, hkw, hin⟩ := hex
      exact ⟨kw, hkw, (listIsInfixB_iff _ _).mpr hin⟩
    simp [route_after_extract, h, hany]
  · intro h hall
    have hany : patient_info_keywords.any
        (fun kw => strContainsB (pyLower st.question) kw) = false := by
      rw [List.any_eq_false]
      intro kw hkw hc
      exact hall kw hkw ((listIsInfixB_iff _ _).mp hc)
    simp [route_after_extract, h, hany]
  · constructor
    · intro hroute
      rcases hval : truthyList st.icd_codes
      · rw [have_icd, hval] at hroute
        exact absurd hroute (by decide)
      · rfl
    · intro hb
      simp [have_icd, hb]
  · intro hb
    simp [have_icd, hb]

/-- Witness for C9 at the spec's own routing examples. -/
theorem c9_agent_routing_witness :
    route_after_extract
      { question := "Summarize the documented findings for patientId:'P001'",
        patient_id := some "P001", icd_codes := none } = "patient_info" ∧
    route_after_extract
      { question := "Rank diseases by HPO coverage for patientId:'P001'",
        patient_id := some "P001", icd_codes := none } = "get_icd" ∧
    route_after_extract
      { question := "What is a phenotype?", patient_id := none, icd_codes := none } =
      "fallback" ∧
    have_icd { question := "", patient_id := some "P001", icd_codes := some [] } =
      "fallback" := by
  refine ⟨?_, ?_, ?_, ?_⟩
  · exact (c9_agent_routing _).2.1 (by decide)
      ⟨"summarize", by decide, (listIsInfixB_iff _ _).mp (by decide)⟩
  · refine (c9_agent_routing _).2.2.1 (by decide) ?_
    have hall : ∀ kw ∈ patient_info_keywords,
        listIsInfixB kw.toList
          (pyLower "Rank diseases by HPO coverage for patientId:'P001'").toList = false := by
      decide
    intro kw hkw hin
    have := (listIsInfixB_iff _ _).mpr hin
    rw [hall kw hkw] at this
    exact absurd this (by decide)
  · exact (c9_agent_routing _).1 (by decide)
  · exact (c9_agent_routing _).2.2.2.2 (by decide)

/-! ## C5 — ontology-mapper thresholding and processed marking -/

/-- **C5** (amended): a decision with `confidence ≥ 0.7` (the boundary
included) whose `best_id` names an existing target node is persisted as a
mapping edge and its source is labelled `ProcessedWithOntologyMapper`; a
decision below the threshold is filtered out by `get_source_nodes_in_batch`
before the write query ever sees it, so its source is neither persisted
nor labelled. -/
theorem c5_threshold_filter (targets : List String) (items : List DecisionItem)
    (s b : String) :
    ((s, b) ∈ mapping_edges_written targets items ↔
      ∃ it ∈ items, it.sourceId = s ∧ it.bestId = some b ∧ b ∈ targets ∧
        llm_threshold ≤ it.confidence) ∧
    (s ∈ processed_sources targets items ↔
      ∃ it ∈ items, it.sourceId = s ∧ llm_threshold ≤ it.confidence ∧
        ∃ b', it.bestId = some b' ∧ b' ∈ targets) := by
  have hedge : ∀ (s' b' : String),
      ((s', b') ∈ mapping_edges_written targets items ↔
        ∃ it ∈ items, it.sourceId = s' ∧ it.bestId = some b' ∧ b' ∈ targets ∧
          llm_threshold ≤ it.confidence) := by
    intro s' b'
    unfold mapping_edges_written passing_items mergeRowEffect
    rw [List.mem_filterMap]
    constructor
    · rintro ⟨it, hit, heff⟩
      rw [List.mem_filter] at hit
      obtain ⟨hmem, hconf⟩ := hit
      rcases hb : it.bestId with _ | b0
      · rw [hb] at heff
        exact absurd heff (by simp)
      · rw [hb] at heff
        simp only [Option.some_bind] at heff
        by_cases htg : b0 ∈ targets
        · rw [if_pos htg] at heff
          obtain ⟨hs, hbeq⟩ := Prod.mk.injEq .. ▸ Option.some.injEq .. ▸ heff
          exact ⟨it, hmem, hs, by rw [hb, hbeq], hbeq ▸ htg,
            of_decide_eq_true hconf⟩
        · rw [if_neg htg] at heff
          exact absurd heff (by simp)
    · rintro ⟨it, hmem, hs, hb, htg, hconf⟩
      refine ⟨it, List.mem_filter.mpr ⟨hmem, decide_eq_true hconf⟩, ?_⟩
      rw [hb, Option.some_bind, if_pos htg, hs]
  refine ⟨hedge s b, ?_⟩
  unfold processed_sources
  rw [List.mem_map]
  constructor
  · rintro ⟨⟨s0, b0⟩, hmem, hfst⟩
    obtain ⟨it, hit, hs, hb, htg, hconf⟩ := (hedge s0 b0).mp hmem
    exact ⟨it, hit, by rw [hs]; exact hfst, hconf, b0, hb, htg⟩
  · rintro ⟨it, hmem, hs, hconf, b', hb, htg⟩
    exact ⟨(s, b'), (hedge s b').mpr ⟨it, hmem, hs, hb, htg, hconf⟩, rfl⟩

/-- Counterexample to C5 as stated: an evaluated source whose decision has
confidence 0.6999 (< 0.7) is not marked `ProcessedWithOntologyMapper` —
the write query, which is the only statement setting that label, never
receives its row. -/
theorem c5_counterexample :
    mapping_edges_written ["T1"] [⟨"S1", some "T1", 6999 / 10000⟩] = [] ∧
    processed_sources ["T1"] [⟨"S1", some "T1", 6999 / 10000⟩] = [] ∧
    ¬ "S1" ∈ processed_sources ["T1"] [⟨"S1", some "T1", 6999 / 10000⟩] ∧
    (6999 / 10000 : ℚ) < 7 / 10 := by
  have h : mapping_edges_written ["T1"] [⟨"S1", some "T1", 6999 / 10000⟩] = [] := by
    norm_num [mapping_edges_written, passing_items, List.filter, llm_threshold]
  refine ⟨h, ?_, ?_, by norm_num⟩
  · rw [processed_sources, h]
    rfl
  · rw [processed_sources, h]
    simp

/-- Witness for C5: the boundary case — confidence exactly 0.7 is
persisted and its source is marked processed. -/
theorem c5_threshold_filter_witness :
    ("S2", "T1") ∈ mapping_edges_written ["T1"] [⟨"S2", some "T1", 7 / 10⟩] ∧
    "S2" ∈ processed_sources ["T1"] [⟨"S2", some "T1", 7 / 10⟩] := by
  have h := c5_threshold_filter ["T1"] [⟨"S2", some "T1", 7 / 10⟩] "S2" "T1"
  exact ⟨h.1.mpr ⟨⟨"S2", some "T1", 7 / 10⟩, by simp, rfl, rfl, by simp, by norm_num [llm_threshold]⟩,
    h.2.mpr ⟨⟨"S2", some "T1", 7 / 10⟩, by simp, rfl, by norm_num [llm_threshold], "T1", rfl, by simp⟩⟩

/-! ## C3 — `get_patient_icd_codes` ignores its `patient_id` argument -/

/-- **C3** (code bug): the Cypher of `get_patient_icd_codes` hardcodes
`{patientId:'P001'}` although the function binds its `pid` parameter, so
the result is identical for every requested patient id and equals P001's
codes; moreover only `rows[0]` is read, so codes on a patient's further
rows are dropped. The uppercase/strip/dedup/sort normalization and the
BOM-property fallback do behave as the claim says. -/
theorem c3_get_patient_icd_codes_ignores_pid :
    (∀ pid : String,
      get_patient_icd_codes
        ⟨[("P001", [⟨some ["g57.1", " e11 "], none⟩]),
          ("P002", [⟨some ["b20"], none⟩])]⟩ pid =
      get_patient_icd_codes
        ⟨[("P001", [⟨some ["g57.1", " e11 "], none⟩]),
          ("P002", [⟨some ["b20"], none⟩])]⟩ "P001") ∧
    get_patient_icd_codes
      ⟨[("P001", [⟨some ["g57.1", " e11 "], none⟩]),
        ("P002", [⟨some ["b20"], none⟩])]⟩ "P002" = ["E11", "G57.1"] ∧
    ¬ "B20" ∈ get_patient_icd_codes
      ⟨[("P001", [⟨some ["g57.1", " e11 "], none⟩]),
        ("P002", [⟨some ["b20"], none⟩])]⟩ "P002" ∧
    get_patient_icd_codes ⟨[("P001", [⟨some ["a10"], none⟩, ⟨some ["b20"], none⟩])]⟩
      "P001" = ["A10"] ∧
    get_patient_icd_codes ⟨[("P001", [⟨none, some ["c30"]⟩])]⟩ "P001" = ["C30"] := by
  exact ⟨fun _ => rfl, by decide, by decide, by decide, by decide⟩

/-! ## C4 — `map_icd_to_hpo` follows only the direct edge -/

/-- **C4** (amended): `map_icd_to_hpo` returns the deduplicated HPO
phenotype ids reached from the given codes *directly* over
`ICD_MAPS_TO_HPO_PHENOTYPE`; the indirect
`IcdDisease ← UMLS_TO_ICD ← Umls → UMLS_TO_HPO_PHENOTYPE → HpoPhenotype`
path is not queried. -/
theorem c4_map_icd_to_hpo_direct_only (g : KGraph) (codes : List String) (h : String) :
    (h ∈ map_icd_to_hpo g codes ↔
      ∃ c ∈ codes, (c, h) ∈ g.icdToHpo ∧ h ∈ g.phenotypes) ∧
    (map_icd_to_hpo g codes).Nodup := by
  constructor
  · unfold map_icd_to_hpo
    by_cases hc : codes = []
    · rw [if_pos hc]
      subst hc
      simp
    · rw [if_neg hc, mem_dedupKeepFirst, List.mem_flatMap]
      constructor
      · rintro ⟨c, hcmem, hmap⟩
        rw [List.mem_map] at hmap
        obtain ⟨e, he, hsnd⟩ := hmap
        rw [List.mem_filter] at he
        obtain ⟨hedge, hcond⟩ := he
        have hcond' := of_decide_eq_true hcond
        exact ⟨c, hcmem, by rw [← hsnd, ← hcond'.1]; exact hedge, hsnd ▸ hcond'.2⟩
      · rintro ⟨c, hcmem, hedge, hphen⟩
        refine ⟨c, hcmem, List.mem_map.mpr ⟨(c, h), List.mem_filter.mpr
          ⟨hedge, decide_eq_true ⟨rfl, hphen⟩⟩, rfl⟩⟩
  · unfold map_icd_to_hpo
    by_cases hc : codes = []
    · rw [if_pos hc]; exact List.nodup_nil
    · rw [if_neg hc]; exact nodup_dedupKeepFirst _

/-- Counterexample to C4 as stated: a phenotype reachable only through the
UMLS path is absent from the result, which differs from the claim's
described union. -/
theorem c4_counterexample :
    map_icd_to_hpo gC4 ["A00"] = [] ∧
    map_icd_to_hpo_claimed gC4 ["A00"] = ["H9"] ∧
    map_icd_to_hpo gC4 ["A00"] ≠ map_icd_to_hpo_claimed gC4 ["A00"] := by
  decide

/-! ## C2 — `rank_diseases_for_patient` composes the four steps -/

/-- **C2** (confirmed against the spec-modelled definition):
`rank_diseases_for_patient` composes `get_patient_icd_codes`,
`map_icd_to_hpo`, `rollup_hpo_to_ancestors` and `compute_coverage`
end-to-end, short-circuiting to an empty result at the first step that
yields nothing. -/
theorem c2_rank_diseases_pipeline (db : PatientDB) (g : KGraph) (pid : String)
    (limit : Nat) :
    (get_patient_icd_codes db pid = [] →
      rank_diseases_for_patient db g pid limit = []) ∧
    (map_icd_to_hpo g (get_patient_icd_codes db pid) = [] →
      rank_diseases_for_patient db g pid limit = []) ∧
    (rollup_hpo_to_ancestors g (map_icd_to_hpo g (get_patient_icd_codes db pid)) = [] →
      rank_diseases_for_patient db g pid limit = []) ∧
    (get_patient_icd_codes db pid ≠ [] →
      map_icd_to_hpo g (get_patient_icd_codes db pid) ≠ [] →
      rollup_hpo_to_ancestors g (map_icd_to_hpo g (get_patient_icd_codes db pid)) ≠ [] →
      rank_diseases_for_patient db g pid limit =
        compute_coverage g
          (rollup_hpo_to_ancestors g (map_icd_to_hpo g (get_patient_icd_codes db pid)))
          limit) := by
  refine ⟨?_, ?_, ?_, ?_⟩
  · intro h
    rw [rank_diseases_for_patient, if_pos h]
  · intro h
    by_cases h0 : get_patient_icd_codes db pid = []
    · rw [rank_diseases_for_patient, if_pos h0]
    · rw [rank_diseases_for_patient, if_neg h0, if_pos h]
  · intro h
    by_cases h0 : get_patient_icd_codes db pid = []
    · rw [rank_diseases_for_patient, if_pos h0]
    by_cases h1 : map_icd_to_hpo g (get_patient_icd_codes db pid) = []
    · rw [rank_diseases_for_patient, if_neg h0, if_pos h1]
    · rw [rank_diseases_for_patient, if_neg h0, if_neg h1, if_pos h]
  · intro h0 h1 h2
    rw [rank_diseases_for_patient, if_neg h0, if_neg h1, if_neg h2]

/-- Witness for C2: on a fixture where every step is non-empty, the
pipeline value is the coverage of the rolled-up mapped codes. -/
theorem c2_rank_diseases_pipeline_witness :
    rank_diseases_for_patient dbW gW "P001" 20 =
      compute_coverage gW
        (rollup_hpo_to_ancestors gW (map_icd_to_hpo gW (get_patient_icd_codes dbW "P001")))
        20 ∧
    rank_diseases_for_patient dbW gW "P001" 20 = [⟨"D1", "d1", 1, 2, 500, ["H1"]⟩] := by
  refine ⟨(c2_rank_diseases_pipeline dbW gW "P001" 20).2.2.2
    (by decide) (by decide) (by decide), by decide⟩

/-! ## C1 — `compute_coverage` row contents, ordering, truncation -/

theorem pctTenths_mono {c1 c2 t : Nat} (h : c1 ≤ c2) :
    pctTenths c1 t ≤ pctTenths c2 t :=
  Nat.div_le_div_right (by omega)

theorem coverageRowFor_eq_some {target : List String} {d : HpoDiseaseNode}
    {r : CoverageRow} (h : coverageRowFor target d = some r) :
    r.diseaseId = d.id ∧ r.diseaseName = d.label ∧
    r.covered = (dedupKeepFirst (d.phenos.filter (· ∈ target))).length ∧
    0 < r.covered ∧
    r.total = target.length ∧
    r.coveragePctTenths = pctTenths r.covered target.length ∧
    r.missingHpoIds = (dedupKeepFirst target).filter
      (· ∉ dedupKeepFirst (d.phenos.filter (· ∈ target))) := by
  unfold coverageRowFor at h
  by_cases hg : dedupKeepFirst (d.phenos.filter (· ∈ target)) = []
  · rw [if_pos hg] at h
    exact absurd h (by simp)
  · rw [if_neg hg] at h
    injection h with h
    subst h
    exact ⟨rfl, rfl, rfl, List.length_pos.mpr hg, rfl, rfl, rfl⟩

theorem mem_coverage_rows_ordered {g : KGraph} {target : List String} {r : CoverageRow}
    (hr : r ∈ coverage_rows_ordered g target) :
    ∃ d ∈ g.diseases, coverageRowFor target d = some r := by
  rw [coverage_rows_ordered, List.mem_insertionSort, List.mem_filterMap] at hr
  exact hr

/-- **C1** (amended): every returned row belongs to a disease with at
least one phenotype edge into the target list, with
`covered = |dedup (disease phenotypes ∩ target)|`,
`total = |target|` (the *target* list's length, not the disease's full
phenotype set), `coveragePct = round(100·covered/total, 1)` (carried in
tenths), and `missingHpoIds` = the *target* ids the disease does not
document; the output is the `coveragePct DESC, covered DESC` ordering of
the full row set truncated to `limit` — in particular `covered` is
non-increasing along the output and every qualifying disease has a row
before truncation. -/
theorem c1_compute_coverage_contract (g : KGraph) (target : List String) (limit : Nat) :
    (∀ r ∈ compute_coverage g target limit, ∃ d ∈ g.diseases,
      r.diseaseId = d.id ∧ r.diseaseName = d.label ∧
      r.covered = (dedupKeepFirst (d.phenos.filter (· ∈ target))).length ∧
      0 < r.covered ∧
      r.total = target.length ∧
      r.coveragePctTenths = pctTenths r.covered target.length ∧
      r.missingHpoIds = (dedupKeepFirst target).filter
        (· ∉ dedupKeepFirst (d.phenos.filter (· ∈ target)))) ∧
    (compute_coverage g target limit).length ≤ limit ∧
    List.Pairwise (fun a b => b.covered ≤ a.covered) (compute_coverage g target limit) ∧
    (target ≠ [] → ∀ d ∈ g.diseases, d.phenos.filter (· ∈ target) ≠ [] →
      ∃ r ∈ coverage_rows_ordered g target, r.diseaseId = d.id) ∧
    (target ≠ [] →
      compute_coverage g target limit = (coverage_rows_ordered g target).take limit) := by
  by_cases ht : target = []
  · refine ⟨?_, ?_, ?_, fun hne => absurd ht hne, fun hne => absurd ht hne⟩ <;>
      simp [compute_coverage, ht]
  have hout : compute_coverage g target limit = (coverage_rows_ordered g target).take limit := by
    simp only [compute_coverage, if_neg ht]
  have hprops : ∀ r ∈ compute_coverage g target limit, ∃ d ∈ g.diseases,
      r.diseaseId = d.id ∧ r.diseaseName = d.label ∧
      r.covered = (dedupKeepFirst (d.phenos.filter (· ∈ target))).length ∧
      0 < r.covered ∧
      r.total = target.length ∧
      r.coveragePctTenths = pctTenths r.covered target.length ∧
      r.missingHpoIds = (dedupKeepFirst target).filter
        (· ∉ dedupKeepFirst (d.phenos.filter (· ∈ target))) := by
    intro r hr
    rw [hout] at hr
    obtain ⟨d, hd, hsome⟩ :=
      mem_coverage_rows_ordered ((List.take_sublist _ _).subset hr)
    exact ⟨d, hd, coverageRowFor_eq_some hsome⟩
  refine ⟨hprops, ?_, ?_, ?_, fun _ => hout⟩
  · rw [hout, List.length_take]
    exact min_le_left _ _
  · have hsorted : List.Pairwise rowGE (coverage_rows_ordered g target) :=
      List.sorted_insertionSort rowGE _
    have htake : List.Pairwise rowGE (compute_coverage g target limit) := by
      rw [hout]
      exact hsorted.sublist (List.take_sublist _ _)
    refine List.Pairwise.imp_of_mem ?_ htake
    intro a b ha hb hGE
    obtain ⟨-, -, -, -, -, -, -, hpcta, -⟩ := hprops a ha
    obtain ⟨-, -, -, -, -, -, -, hpctb, -⟩ := hprops b hb
    rcases hGE with hlt | ⟨-, hle⟩
    · by_contra hcon
      push_neg at hcon
      have hmono : a.coveragePctTenths ≤ b.coveragePctTenths := by
        rw [hpcta, hpctb]
        exact pctTenths_mono (le_of_lt hcon)
      omega
    · exact hle
  · intro _ d hd hq
    rcases hrow : coverageRowFor target d with _ | r
    · exfalso
      unfold coverageRowFor at hrow
      rw [if_neg (fun hc => hq (dedupKeepFirst_eq_nil_iff.mp hc))] at hrow
      exact absurd hrow (by simp)
    · refine ⟨r, ?_, (coverageRowFor_eq_some hrow).1⟩
      rw [coverage_rows_ordered, List.mem_insertionSort, List.mem_filterMap]
      exact ⟨d, hd, hrow⟩

/-- Witness for C1 at a two-disease fixture: the row facts hold for the
concrete top row of the output. -/
theorem c1_compute_coverage_contract_witness :
    ∃ d ∈ gW.diseases,
      (⟨"D1", "d1", 1, 2, 500, ["H1"]⟩ : CoverageRow).diseaseId = d.id ∧
      (⟨"D1", "d1", 1, 2, 500, ["H1"]⟩ : CoverageRow).diseaseName = d.label ∧
      (⟨"D1", "d1", 1, 2, 500, ["H1"]⟩ : CoverageRow).covered =
        (dedupKeepFirst (d.phenos.filter (· ∈ ["H1", "H2"]))).length ∧
      0 < (⟨"D1", "d1", 1, 2, 500, ["H1"]⟩ : CoverageRow).covered ∧
      (⟨"D1", "d1", 1, 2, 500, ["H1"]⟩ : CoverageRow).total = (["H1", "H2"] : List String).length ∧
      (⟨"D1", "d1", 1, 2, 500, ["H1"]⟩ : CoverageRow).coveragePctTenths =
        pctTenths (⟨"D1", "d1", 1, 2, 500, ["H1"]⟩ : CoverageRow).covered
          (["H1", "H2"] : List String).length ∧
      (⟨"D1", "d1", 1, 2, 500, ["H1"]⟩ : CoverageRow).missingHpoIds =
        (dedupKeepFirst ["H1", "H2"]).filter
          (· ∉ dedupKeepFirst (d.phenos.filter (· ∈ ["H1", "H2"]))) :=
  (c1_compute_coverage_contract gW ["H1", "H2"] 20).1 _ (by decide)

/-- Counterexample to C1 as stated: for a disease documenting
`{H1, H2, H3}` and target `{H1, H2}`, the claim mandates `total = 3` (the
disease's full phenotype set), `missingHpoIds = ["H3"]` (disease ids not
in the target) and `coveragePct = 66.7`; the code returns `total = 2`
(the target's size), `missingHpoIds = []` (target ids the disease lacks)
and `coveragePct = 100.0`. -/
theorem c1_counterexample :
    compute_coverage gC1 ["H1", "H2"] 20 = [⟨"D1", "d1", 2, 2, 1000, []⟩] ∧
    compute_coverage gC1 ["H1", "H2"] 20 ≠ [⟨"D1", "d1", 2, 3, 667, ["H3"]⟩] := by
  decide

/-! ## C7 — alphanumeric range expansion -/

theorem toList_mk (l : List Char) : (String.mk l).toList = l := rfl

theorem isAsciiDigitB_not_letter {c : Char} (h : isAsciiDigitB c = true) :
    isAsciiLetterB c = false := by
  simp only [isAsciiDigitB, Bool.and_eq_true, decide_eq_true_eq] at h
  obtain ⟨h1, h2⟩ := h
  have hA : decide (65 ≤ c.toNat) = false := decide_eq_false (by omega)
  have ha : decide (97 ≤ c.toNat) = false := decide_eq_false (by omega)
  simp [isAsciiLetterB, hA, ha]

theorem takeWhile_letters_append (p d : List Char)
    (hp : ∀ c ∈ p, isAsciiLetterB c = true)
    (hd : ∀ c ∈ d, isAsciiDigitB c = true) :
    (p ++ d).takeWhile isAsciiLetterB = p ∧ (p ++ d).dropWhile isAsciiLetterB = d := by
  induction p with
  | nil =>
    simp only [List.nil_append]
    cases d with
    | nil => exact ⟨rfl, rfl⟩
    | cons c cs =>
      have hc : isAsciiLetterB c = false :=
        isAsciiDigitB_not_letter (hd c (List.mem_cons_self _ _))
      exact ⟨by simp [List.takeWhile_cons, hc], by simp [List.dropWhile_cons, hc]⟩
  | cons a p ih =>
    have ha : isAsciiLetterB a = true := hp a (List.mem_cons_self _ _)
    have ih' := ih (fun c hc => hp c (List.mem_cons_of_mem _ hc))
    exact ⟨by simp [List.takeWhile_cons, ha, ih'.1],
      by simp [List.dropWhile_cons, ha, ih'.2]⟩

theorem parseCode_append {p d : List Char} (hp : p ≠ []) (hd : d ≠ [])
    (hpl : ∀ c ∈ p, isAsciiLetterB c = true)
    (hdd : ∀ c ∈ d, isAsciiDigitB c = true) :
    parseCode ⟨p ++ d⟩ = some (p, d) := by
  have htk := takeWhile_letters_append p d hpl hdd
  have hall : d.all isAsciiDigitB = true := List.all_eq_true.mpr hdd
  unfold parseCode
  rw [toList_mk, htk.1, htk.2, if_pos ⟨hp, hd, hall⟩]

theorem mem_pyRangeInclusive {n1 n2 m : Nat} :
    m ∈ pyRangeInclusive n1 n2 ↔ min n1 n2 ≤ m ∧ m ≤ max n1 n2 := by
  unfold pyRangeInclusive
  by_cases h : n1 ≤ n2
  · rw [if_pos h]
    simp only [List.mem_map, List.mem_range]
    constructor
    · rintro ⟨k, hk, rfl⟩; omega
    · rintro ⟨h1, h2⟩; exact ⟨m - n1, by omega, by omega⟩
  · rw [if_neg h]
    simp only [List.mem_map, List.mem_range]
    constructor
    · rintro ⟨k, hk, rfl⟩; omega
    · rintro ⟨h1, h2⟩; exact ⟨n1 - m, by omega, by omega⟩

theorem head?_pyRangeInclusive (n1 n2 : Nat) :
    (pyRangeInclusive n1 n2).head? = some n1 := by
  unfold pyRangeInclusive
  by_cases h : n1 ≤ n2
  · rw [if_pos h, List.range_succ_eq_map]
    simp
  · rw [if_neg h, List.range_succ_eq_map]
    simp

theorem getLast?_pyRangeInclusive (n1 n2 : Nat) :
    (pyRangeInclusive n1 n2).getLast? = some n2 := by
  unfold pyRangeInclusive
  by_cases h : n1 ≤ n2
  · rw [if_pos h, List.range_succ, List.map_append, List.map_cons, List.map_nil,
      List.getLast?_concat]
    exact congrArg some (by omega)
  · rw [if_neg h, List.range_succ, List.map_append, List.map_cons, List.map_nil,
      List.getLast?_concat]
    exact congrArg some (by omega)

/-- **C7** (confirmed): for bound codes `p ++ d1`, `p ++ d2` sharing the
letter prefix `p`, `alphanum_range` returns the inclusive run from
`int(d1)` to `int(d2)` — ascending when `int(d1) ≤ int(d2)`, descending
otherwise (inclusive at both ends, with first element `int(d1)` and last
`int(d2)`) — each value zero-padded to the longer digit-length and
prefixed with `p`; for bounds with different letter prefixes it returns
the empty list rather than raising. -/
theorem c7_alphanum_range (p d1 d2 : List Char)
    (hp : p ≠ []) (hd1 : d1 ≠ []) (hd2 : d2 ≠ [])
    (hpl : ∀ c ∈ p, isAsciiLetterB c = true)
    (hdd1 : ∀ c ∈ d1, isAsciiDigitB c = true)
    (hdd2 : ∀ c ∈ d2, isAsciiDigitB c = true) :
    alphanum_range ⟨p ++ d1⟩ ⟨p ++ d2⟩ =
      some ((pyRangeInclusive (digitsToNat d1) (digitsToNat d2)).map
        (fun i => ⟨p ++ padZeros (max d1.length d2.length) i⟩)) ∧
    (∀ m, m ∈ pyRangeInclusive (digitsToNat d1) (digitsToNat d2) ↔
      min (digitsToNat d1) (digitsToNat d2) ≤ m ∧
        m ≤ max (digitsToNat d1) (digitsToNat d2)) ∧
    (pyRangeInclusive (digitsToNat d1) (digitsToNat d2)).head? =
      some (digitsToNat d1) ∧
    (pyRangeInclusive (digitsToNat d1) (digitsToNat d2)).getLast? =
      some (digitsToNat d2) ∧
    (∀ q : List Char, q ≠ [] → (∀ c ∈ q, isAsciiLetterB c = true) → q ≠ p →
      alphanum_range ⟨p ++ d1⟩ ⟨q ++ d2⟩ = some []) := by
  refine ⟨?_, fun m => mem_pyRangeInclusive, head?_pyRangeInclusive _ _,
    getLast?_pyRangeInclusive _ _, ?_⟩
  · unfold alphanum_range
    rw [parseCode_append hp hd1 hpl hdd1, parseCode_append hp hd2 hpl hdd2]
    show (if p ≠ p then some [] else some _) = some _
    rw [if_neg (fun hc => hc rfl)]
  · intro q hq hql hqp
    unfold alphanum_range
    rw [parseCode_append hp hd1 hpl hdd1, parseCode_append hq hd2 hql hdd2]
    show (if p ≠ q then some [] else some _) = some []
    rw [if_pos (fun hc => hqp hc.symm)]

/-- Witness for C7 at the spec's own examples: a descending expansion and
a mismatched-prefix pair. -/
theorem c7_alphanum_range_witness :
    alphanum_range "A05" "A00" = some ["A05", "A04", "A03", "A02", "A01", "A00"] ∧
    alphanum_range "A00" "B09" = some [] := by
  constructor
  · exact ((c7_alphanum_range ['A'] ['0', '5'] ['0', '0'] (by decide) (by decide)
      (by decide) (by decide) (by decide) (by decide)).1).trans (by decide)
  · exact (c7_alphanum_range ['A'] ['0', '0'] ['0', '9'] (by decide) (by decide)
      (by decide) (by decide) (by decide) (by decide)).2.2.2.2 ['B'] (by decide)
      (by decide) (by decide)

end Cdl2025
